import Mathlib

/-!
Verification of the `generate_rss.py` feed generator.

The Python source is shallowly embedded below: strings are Lean `String`s
(sequences of Unicode code points, matching Python's `str` indexing/length
semantics), fallible or exception-raising code returns `Option`/`Except`,
and the HTTP / HTML-parsing collaborators are abstracted into explicit data
(a fetched page is a `Page` record holding the results of the fixed
BeautifulSoup queries the code performs).
-/

namespace UltimasGeekRss

/-! ## Basic Python string primitives (code-point based, as in Python) -/

/-- `l.takeWhile (· != sep)`: the part of `l` before the first `sep`;
this is Python's `s.split(sep, 1)[0]`. -/
def splitFirst (sep : Char) (l : List Char) : List Char :=
  l.takeWhile (fun c => c != sep)

/-- Python `str.rstrip()` on a character list: drop trailing whitespace. -/
def rstripWs (l : List Char) : List Char :=
  (l.reverse.dropWhile Char.isWhitespace).reverse

/-- Python `str.strip()` on a character list: drop leading and trailing
whitespace. -/
def stripWs (l : List Char) : List Char :=
  rstripWs (l.dropWhile Char.isWhitespace)

/-- Python `str.strip()` at the `String` level. -/
def py_strip (s : String) : String := ⟨stripWs s.data⟩

/-- Python `str.rstrip()` at the `String` level. -/
def py_rstrip (s : String) : String := ⟨rstripWs s.data⟩

/-- Python `str.lower()` (ASCII case mapping; every string this program
lowercases before comparing is checked against pure-ASCII table keys, for
which Python's and Lean's lowercasing agree). -/
def py_lower (s : String) : String := ⟨s.data.map Char.toLower⟩

/-- Python `s.startswith(pre)`. -/
def py_startswith (s pre : String) : Bool := pre.data.isPrefixOf s.data

/-- Python `s.endswith(suf)`. -/
def py_endswith (s suf : String) : Bool := suf.data.isSuffixOf s.data

/-! ## Configuration constants (module header of `generate_rss.py`) -/

def SITE : String := "https://ultimasgeek.com/"

def FEED_URL : String := "https://franvillafanez.github.io/ultimasgeek-rss/rss.xml"

def MAX_ITEMS : Nat := 25

def BLOCKED_SLUGS : List String :=
  ["lo-ultimo", "nota-de-voz", "contacto", "about"]

def BLOCKED_PREFIXES : List String :=
  ["category/", "tag/", "page/", "author/", "wp-"]

def ASSET_EXTS : List String :=
  [".jpg", ".jpeg", ".png", ".webp", ".gif", ".svg", ".pdf"]

def MONTHS_ES : List (String × Nat) :=
  [("enero", 1), ("febrero", 2), ("marzo", 3), ("abril", 4), ("mayo", 5),
   ("junio", 6), ("julio", 7), ("agosto", 8), ("septiembre", 9),
   ("setiembre", 9), ("octubre", 10), ("noviembre", 11), ("diciembre", 12)]

/-! ## `normalize_url` (source lines 66–71) -/

/-- Core of `normalize_url` on character lists:
`url.split("#", 1)[0].split("?", 1)[0]` guarded by the emptiness check. -/
def normalizeUrlL (l : List Char) : List Char :=
  if l = [] then l else splitFirst '?' (splitFirst '#' l)

/-- `normalize_url(url)`: strip query/fragment so URLs dedupe well. -/
def normalize_url (url : String) : String := ⟨normalizeUrlL url.data⟩

/-- Spec-side reading of normalization ("strips everything from the first
`#` or `?` onward, whichever occurs first"). -/
def stripAtQueryOrFragment (url : String) : String :=
  ⟨url.data.takeWhile (fun c => !(c == '#' || c == '?'))⟩

/-! ## `is_post_url` (source lines 74–100) -/

/-- Python `path.strip("/")`: remove leading and trailing slashes. -/
def stripSlashes (l : List Char) : List Char :=
  ((l.dropWhile (fun c => c == '/')).reverse.dropWhile (fun c => c == '/')).reverse

/-- `clean[len(SITE):].strip("/")` for `clean = normalize_url(url)`
(source lines 78–79): the path the classifier inspects. -/
def postPath (url : String) : List Char :=
  stripSlashes ((normalizeUrlL url.data).drop SITE.data.length)

/-- The path-level checks of `is_post_url` (source lines 81–100), applied
to `postPath`; each decidable proposition is the exact test the Python
line performs (`startswith` = list prefix, `in` = infix/membership,
`endswith` = list suffix). -/
def pathChecks (path : List Char) : Bool :=
  if path = [] then false
  else if ∃ p ∈ BLOCKED_PREFIXES, p.data <+: path then false
  else if "/page/".data <:+: path then false
  else if ∃ s ∈ BLOCKED_SLUGS, path = s.data then false
  else if ∃ e ∈ ASSET_EXTS, e.data <:+ path then false
  else true

/-- `is_post_url(url)` (source lines 74–100). -/
def is_post_url (url : String) : Bool :=
  if url = "" then false
  else if SITE.data <+: url.data then pathChecks (postPath url)
  else false

/-- Spec-side characterization of `is_post_url`, written from the claim:
false when the URL is empty or not prefixed by the site base, or when its
path (the remainder of the normalized URL after the base, trimmed of
slashes) is empty, begins with a blocked prefix, contains "/page/"
anywhere, equals a blocked slug, or ends with a known asset extension;
true for every other URL prefixed by the site base. -/
def IsPostUrlSpec (url : String) : Prop :=
  url ≠ "" ∧ SITE.data <+: url.data ∧
    postPath url ≠ [] ∧
    (∀ p ∈ BLOCKED_PREFIXES, ¬ p.data <+: postPath url) ∧
    ¬ "/page/".data <:+: postPath url ∧
    (∀ s ∈ BLOCKED_SLUGS, postPath url ≠ s.data) ∧
    (∀ e ∈ ASSET_EXTS, ¬ e.data <:+ postPath url)

/-! ## `parse_date_es` (source lines 122–140)

`re.search(r"(\d{1,2})\s+([a-záéíóúñ]+)\s*,\s*(\d{4})", text, re.IGNORECASE)`
is embedded as an explicit leftmost-match scanner.  The regex engine's only
backtracking point for this pattern is the greedy `\d{1,2}` (each later
greedy class is followed by a character disjoint from it, so maximal munch
is exact); the scanner therefore tries a two-digit day first and falls back
to one digit, at each start position from the left. -/

/-- Python `\d` restricted to ASCII (all inputs the claims evaluate are
ASCII; Python additionally accepts non-ASCII Unicode decimal digits). -/
def isDigitA (c : Char) : Bool := c.isDigit

/-- Python `\s` restricted to ASCII: space, `\t`, `\n`, `\v`, `\f`, `\r`. -/
def isSpaceA (c : Char) : Bool :=
  c == ' ' || c == '\t' || c == '\n' || c == '\x0b' || c == '\x0c' || c == '\r'

/-- The character class `[a-záéíóúñ]` under `re.IGNORECASE`. -/
def isMonthChar (c : Char) : Bool :=
  ('a' ≤ c && c ≤ 'z') || ('A' ≤ c && c ≤ 'Z') ||
  c == 'á' || c == 'é' || c == 'í' || c == 'ó' || c == 'ú' || c == 'ñ' ||
  c == 'Á' || c == 'É' || c == 'Í' || c == 'Ó' || c == 'Ú' || c == 'Ñ'

def digitVal (c : Char) : Nat := c.toNat - '0'.toNat

/-- After the day digits: match `\s+([a-záéíóúñ]+)\s*,\s*(\d{4})`, returning
the month-name characters and the year. -/
def matchAfterDay (l : List Char) : Option (List Char × Nat) :=
  let sp := l.takeWhile isSpaceA
  if sp = [] then none
  else
    let r1 := l.dropWhile isSpaceA
    let mon := r1.takeWhile isMonthChar
    if mon = [] then none
    else
      let r2 := r1.dropWhile isMonthChar
      let r3 := r2.dropWhile isSpaceA
      match r3 with
      | ',' :: r4 =>
        let r5 := r4.dropWhile isSpaceA
        match r5 with
        | a :: b :: c :: d :: _ =>
          if isDigitA a && isDigitA b && isDigitA c && isDigitA d then
            some (mon, ((digitVal a * 10 + digitVal b) * 10 + digitVal c) * 10 + digitVal d)
          else none
        | _ => none
      | _ => none

/-- Try to match the date pattern at the current position: greedy
`\d{1,2}` (two digits, else one), then the rest of the pattern. -/
def matchFrom (l : List Char) : Option (Nat × List Char × Nat) :=
  match l with
  | c1 :: rest1 =>
    if isDigitA c1 then
      (match rest1 with
       | c2 :: rest2 =>
         if isDigitA c2 then
           (matchAfterDay rest2).map (fun p => (digitVal c1 * 10 + digitVal c2, p))
         else none
       | [] => none)
      <|>
      (matchAfterDay rest1).map (fun p => (digitVal c1, p))
    else none
  | [] => none

/-- Leftmost search: try `matchFrom` at each start position left to right. -/
def searchDate : List Char → Option (Nat × List Char × Nat)
  | [] => none
  | c :: rest => matchFrom (c :: rest) <|> searchDate rest

/-- A calendar timestamp in UTC (the program's single reference zone). -/
structure UTCTime where
  year : Nat
  month : Nat
  day : Nat
  hour : Nat
  minute : Nat
  second : Nat
deriving DecidableEq, Repr

/-- Days in a month, with the Gregorian leap rule (as `datetime` uses). -/
def daysInMonth (y m : Nat) : Nat :=
  if m = 2 then
    if y % 4 = 0 ∧ (y % 100 ≠ 0 ∨ y % 400 = 0) then 29 else 28
  else if m = 4 ∨ m = 6 ∨ m = 9 ∨ m = 11 then 30
  else 31

/-- `dt.datetime(y, m, d, 12, 0, 0, tzinfo=timezone(-3h)).astimezone(utc)`:
noon at the fixed −03 publisher offset is `12 − (−3) = 15` hours UTC, which
is below 24, so the civil date is unchanged. -/
def middayArToUTC (y m d : Nat) : UTCTime := ⟨y, m, d, 12 + 3, 0, 0⟩

/-- Result of `parse_date_es`: no match / a timestamp / an uncaught
`ValueError` raised by the `datetime` constructor. -/
inductive ParseDateResult where
  | noDate : ParseDateResult
  | date : UTCTime → ParseDateResult
  | valueError : ParseDateResult
deriving DecidableEq, Repr

/-- `parse_date_es(text)` (source lines 122–140).  `datetime` raises
`ValueError` unless `MINYEAR ≤ year ≤ MAXYEAR` and `1 ≤ day ≤` days in the
matched month. -/
def parse_date_es (text : String) : ParseDateResult :=
  match searchDate text.data with
  | none => .noDate
  | some (day, monChars, year) =>
    let monName : String := ⟨monChars.map Char.toLower⟩
    match MONTHS_ES.lookup monName with
    | none => .noDate
    | some mon =>
      if 1 ≤ year ∧ year ≤ 9999 ∧ 1 ≤ day ∧ day ≤ daysInMonth year mon then
        .date (middayArToUTC year mon day)
      else .valueError

/-! ## `guess_image_mime` (source lines 143–153) -/

/-- `guess_image_mime(url)`: lowercase, strip query then fragment, and map
the suffix to a media type, defaulting to JPEG. -/
def guess_image_mime (url : String) : String :=
  let u : String := ⟨splitFirst '#' (splitFirst '?' (py_lower url).data)⟩
  if py_endswith u ".png" then "image/png"
  else if py_endswith u ".webp" then "image/webp"
  else if py_endswith u ".gif" then "image/gif"
  else if py_endswith u ".svg" then "image/svg+xml"
  else "image/jpeg"

/-! ## `parse_post` (source lines 156–212)

A fetched post page is abstracted into the results of the fixed
BeautifulSoup queries `parse_post` performs.  `none` means the queried tag
is absent; `some s` holds the relevant text:
for the three `meta` fields, the raw `content` attribute (a missing
attribute behaves as `some ""`, matching `tag.get("content") or ""`);
for `h1` / `title` / the first `p`, the tag's `get_text(" ", strip=True)`
(which is the empty string exactly when `get_text(strip=True)` is, so the
code's non-emptiness guards coincide with a `≠ ""` test on the field). -/

structure Page where
  ogTitle : Option String
  h1 : Option String
  titleTag : Option String
  ogDescription : Option String
  metaDescription : Option String
  firstP : Option String
  ogImage : Option String
  textAll : String
deriving DecidableEq, Repr

/-- `get_meta_property` / `get_meta_name` (source lines 165–171):
`(tag.get("content") or "").strip() if tag else ""`. -/
def get_meta (field : Option String) : String :=
  match field with
  | some c => py_strip c
  | none => ""

/-- Title resolution (source lines 173–182): OG → h1 → title. -/
def resolveTitle (p : Page) : String :=
  let title := get_meta p.ogTitle
  let title :=
    if title = "" then
      match p.h1 with
      | some h => if h ≠ "" then h else title
      | none => title
    else title
  let title :=
    if title = "" then
      match p.titleTag with
      | some t => if t ≠ "" then t else title
      | none => title
    else title
  title

/-- Description resolution (source lines 187–192):
OG description `or` meta description `or` first paragraph. -/
def resolveDesc (p : Page) : String :=
  let desc := get_meta p.ogDescription
  let desc := if desc = "" then get_meta p.metaDescription else desc
  let desc :=
    if desc = "" then
      match p.firstP with
      | some t => t
      | none => desc
    else desc
  desc

/-- Description clean-up and truncation (source lines 194–196):
`desc = (desc or "").strip(); if len(desc) > 300: desc = desc[:300].rstrip() + "…"`. -/
def truncate_desc (desc : String) : String :=
  let d := py_strip desc
  if 300 < d.length then py_rstrip (⟨d.data.take 300⟩ : String) ++ "…" else d

/-- One feed item, as assembled by `parse_post` (source lines 205–212). -/
structure RssItem where
  title : String
  link : String
  guid : String
  pubDate : String
  description : String
  image_url : String
deriving DecidableEq, Repr

/-- `email.utils.format_datetime`: weekday by Sakamoto's congruence
(0 = Sunday), rendered as `Www, DD Mon YYYY HH:MM:SS +0000`. -/
def weekdayOf (y m d : Nat) : Nat :=
  let y' : Int := if m < 3 then (y : Int) - 1 else (y : Int)
  let t : Int := [0, 3, 2, 5, 0, 3, 5, 1, 4, 6, 2, 4].getD (m - 1) 0
  ((y' + y' / 4 - y' / 100 + y' / 400 + t + (d : Int)) % 7).toNat

def pad2 (n : Nat) : String := if n < 10 then "0" ++ toString n else toString n

def format_datetime (t : UTCTime) : String :=
  let dayName := ["Sun", "Mon", "Tue", "Wed", "Thu", "Fri", "Sat"].getD (weekdayOf t.year t.month t.day) "Sun"
  let monName := ["Jan", "Feb", "Mar", "Apr", "May", "Jun", "Jul", "Aug",
                  "Sep", "Oct", "Nov", "Dec"].getD (t.month - 1) "Jan"
  dayName ++ ", " ++ pad2 t.day ++ " " ++ monName ++ " " ++ toString t.year ++ " "
    ++ pad2 t.hour ++ ":" ++ pad2 t.minute ++ ":" ++ pad2 t.second ++ " +0000"

/-- Outcome of `fetch(post_url)` inside `parse_post`'s `try` block: either
the parsed page or a raised transport error. -/
inductive FetchResult where
  | ok : Page → FetchResult
  | failed : FetchResult

/-- `parse_post(post_url)` (source lines 156–212).  The `try` block covers
only the fetch: a fetch failure is caught and yields `ok none` (warn and
skip), while a `ValueError` raised by `parse_date_es` propagates as
`Except.error ()`.  `now` stands for `dt.datetime.now(dt.timezone.utc)`. -/
def parse_post (fetch : FetchResult) (post_url : String) (now : UTCTime) :
    Except Unit (Option RssItem) :=
  match fetch with
  | .failed => .ok none
  | .ok p =>
    let title := resolveTitle p
    if title = "" then .ok none
    else
      let desc := truncate_desc (resolveDesc p)
      let image_url := py_strip (get_meta p.ogImage)
      match parse_date_es p.textAll with
      | .valueError => .error ()
      | .noDate =>
        .ok (some ⟨title, post_url, post_url, format_datetime now, desc, image_url⟩)
      | .date d =>
        .ok (some ⟨title, post_url, post_url, format_datetime d, desc, image_url⟩)

/-! ## `build_rss` (source lines 215–265) -/

/-- `esc_cdata` (source lines 218–220) on character lists:
`s.replace("]]>", "]]]]><![CDATA[>")`, Python's left-to-right
non-overlapping replacement. -/
def escCd : List Char → List Char
  | ']' :: ']' :: '>' :: rest =>
    ']' :: ']' :: ']' :: ']' :: '>' :: '<' :: '!' :: '[' :: 'C' :: 'D' :: 'A' :: 'T' :: 'A' :: '[' :: '>' :: escCd rest
  | c :: rest => c :: escCd rest
  | [] => []

/-- `esc_cdata(s)` at the `String` level. -/
def esc_cdata (s : String) : String := ⟨escCd s.data⟩

/-- `html.escape(s, quote=True)`. -/
def escapeChar (c : Char) : String :=
  if c = '&' then "&amp;"
  else if c = '<' then "&lt;"
  else if c = '>' then "&gt;"
  else if c = '"' then "&quot;"
  else if c = Char.ofNat 39 then "&#x27;"
  else ⟨[c]⟩

def html_escape (s : String) : String := String.join (s.data.map escapeChar)

/-- The stripped image URL of an item (source line 233). -/
def imgUrlOf (it : RssItem) : String := py_strip it.image_url

/-- Inline image markup (source lines 234–236): only for `http…` URLs. -/
def imgHtml (it : RssItem) : String :=
  if py_startswith (imgUrlOf it) "http" then
    "<p><img src=\"" ++ html_escape (imgUrlOf it) ++ "\" alt=\"" ++ html_escape it.title ++ "\" /></p>"
  else ""

/-- Enclosure element (source lines 234–237): only for `http…` URLs. -/
def enclosureElem (it : RssItem) : String :=
  if py_startswith (imgUrlOf it) "http" then
    "\n      <enclosure url=\"" ++ html_escape (imgUrlOf it) ++ "\" type=\""
      ++ guess_image_mime (imgUrlOf it) ++ "\" />"
  else ""

/-- `description_html` (source line 240). -/
def descriptionHtml (it : RssItem) : String :=
  let descText := esc_cdata it.description
  if descText ≠ "" then imgHtml it ++ "<p>" ++ descText ++ "</p>" else imgHtml it

/-- The `<title>` element with its CDATA-wrapped escaped content. -/
def titleBlock (it : RssItem) : String :=
  "<title><![CDATA[" ++ esc_cdata it.title ++ "]]></title>"

/-- The `<description>` element with its CDATA-wrapped content. -/
def descBlock (it : RssItem) : String :=
  "<description><![CDATA[" ++ descriptionHtml it ++ "]]></description>"

/-- The per-item f-string of `build_rss` (source lines 242–252) before the
trailing `.rstrip()`. -/
def renderItemBody (it : RssItem) : String :=
  "\n    <item>\n      " ++ titleBlock it
    ++ "\n      <link>" ++ html_escape it.link ++ "</link>"
    ++ "\n      <guid isPermaLink=\"true\">" ++ html_escape it.guid ++ "</guid>"
    ++ "\n      <pubDate>" ++ it.pubDate ++ "</pubDate>"
    ++ "\n      " ++ descBlock it ++ enclosureElem it
    ++ "\n    </item>"

/-- One rendered `<item>` block: the f-string (which ends `…</item>\n`)
with its trailing `.rstrip()` applied. -/
def renderItem (it : RssItem) : String :=
  py_rstrip (renderItemBody it ++ "\n")

/-- The `rss_items` accumulation loop of `build_rss` (source lines 222–252). -/
def buildRssItems : List RssItem → List String → List String
  | [], acc => acc
  | it :: rest, acc => buildRssItems rest (acc ++ [renderItem it])

/-- `build_rss(items)` (source lines 215–265); `now` stands for the
formatted `lastBuildDate`. -/
def build_rss (now : String) (items : List RssItem) : String :=
  "<?xml version=\"1.0\" encoding=\"UTF-8\"?>\n<rss version=\"2.0\" xmlns:atom=\"http://www.w3.org/2005/Atom\">\n  <channel>\n    <title>Últimas Geek</title>\n    <link>"
    ++ SITE ++ "</link>\n    <atom:link href=\"" ++ FEED_URL
    ++ "\" rel=\"self\" type=\"application/rss+xml\" />\n    <description>Feed generado automáticamente desde la home</description>\n    <lastBuildDate>"
    ++ now ++ "</lastBuildDate>\n"
    ++ String.intercalate "\n" (buildRssItems items [])
    ++ "\n  </channel>\n</rss>\n"

/-! ## A CDATA-run reader, for the round-trip property

A well-formed CDATA run is one or more adjacent `<![CDATA[…]]>` sections;
its decoded content is the concatenation of the section contents.  Inside a
section, the first occurrence of `]]>` always terminates it, so an input in
which `]]>` is followed by anything other than a new `<![CDATA[` opener (or
the end) is rejected — this is exactly what "no embedded literal terminator"
means for the escaped output. -/

/-- The CDATA section opener `<![CDATA[`. -/
def cdOpen : List Char := ['<', '!', '[', 'C', 'D', 'A', 'T', 'A', '[']

/-- The CDATA section terminator `]]>`. -/
def cdClose : List Char := [']', ']', '>']

/-- Read the content of a CDATA run after an initial `<![CDATA[` opener:
ordinary characters are content; the first occurrence of `]]>` ends the
current section and must be followed either by the end of the input (run
complete) or by another `<![CDATA[` opener (content continues). -/
def scanRun (l : List Char) : Option (List Char) :=
  match l with
  | [] => none
  | c :: rest =>
    if c = ']' ∧ rest.take 2 = [']', '>'] then
      if rest.drop 2 = [] then some []
      else if cdOpen <+: rest.drop 2 then scanRun ((rest.drop 2).drop cdOpen.length)
      else none
    else
      (scanRun rest).map (fun x => c :: x)
termination_by l.length
decreasing_by
  · simp only [List.length_cons, List.length_drop]
    omega
  · simp only [List.length_cons]
    omega

/-- Parse a complete CDATA run and return its decoded content. -/
def parseCDataRun (l : List Char) : Option (List Char) :=
  if cdOpen <+: l then scanRun (l.drop cdOpen.length) else none

/-! ## The orchestrator loop of `main` (source lines 272–288) -/

/-- The deduplication key: `(it["link"], it["title"].strip().lower())`. -/
def keyOf (it : RssItem) : String × String := (it.link, py_lower (py_strip it.title))

/-- The accumulation loop of `main` over the per-URL `parse_post` results
(`none` when `parse_post` produced no record): skip falsy results, skip
already-seen `(link, normalized title)` keys, append otherwise, and break
once `MAX_ITEMS` records have accumulated.  `seen` is the Python set,
modelled as the list of inserted keys. -/
def collectItems : List (Option RssItem) → List (String × String) → List RssItem → List RssItem
  | [], _, items => items
  | none :: rest, seen, items => collectItems rest seen items
  | some it :: rest, seen, items =>
    if keyOf it ∈ seen then collectItems rest seen items
    else
      let items' := items ++ [it]
      if MAX_ITEMS ≤ items'.length then items'
      else collectItems rest (keyOf it :: seen) items'

/-- First-occurrence deduplication by `keyOf`, relative to an initial set
of already-seen keys (specification-side description of the loop). -/
def dedupByKey : List RssItem → List (String × String) → List RssItem
  | [], _ => []
  | it :: rest, seen =>
    if keyOf it ∈ seen then dedupByKey rest seen
    else it :: dedupByKey rest (keyOf it :: seen)

/-! ## Spec-side auxiliary definitions and concrete fixtures -/

/-- First non-empty string of a list (the spec's reading of a fallback
chain), or `""` when none is. -/
def firstNonEmpty : List String → String
  | [] => ""
  | s :: rest => if s ≠ "" then s else firstNonEmpty rest

/-- The claim's title chain: social-metadata title, first heading text,
page-title text — first non-empty wins. -/
def titleChainSpec (p : Page) : String :=
  firstNonEmpty [get_meta p.ogTitle, p.h1.getD "", p.titleTag.getD ""]

/-- A fixed "now" used to instantiate `parse_post` in concrete tests. -/
def t0 : UTCTime := ⟨2026, 1, 1, 0, 0, 0⟩

/-- A page whose only title source is the `<title>` element. -/
def onlyTitlePage : Page := ⟨none, none, some "Sólo Título", none, none, none, none, ""⟩

/-- A page offering none of the three title sources. -/
def emptyPage : Page := ⟨none, none, none, none, none, none, none, ""⟩

/-- A page whose visible text carries a date that matches the pattern but
is not a valid calendar date. -/
def badDatePage : Page :=
  ⟨some "Título", none, none, none, none, none, none, "Publicado el 31 febrero, 2026"⟩

/-- An item whose image URL is relative (not `http…`). -/
def relImgItem : RssItem :=
  ⟨"t", "https://ultimasgeek.com/p/", "https://ultimasgeek.com/p/",
   "Thu, 01 Jan 2026 00:00:00 +0000", "d", "/imgs/a.png"⟩

/-- A 301-character description whose 300th character is a space. -/
def longDesc : String := ⟨List.replicate 299 'a' ++ [' ', 'b']⟩

/-- A short description with surrounding whitespace. -/
def shortDesc : String := "  hola  "

/-! ## Lemmas about normalization -/

/-- The predicate "is neither `#` nor `?`". -/
def notQF (c : Char) : Bool := !(c == '#' || c == '?')

theorem splitFirst_splitFirst (l : List Char) :
    splitFirst '?' (splitFirst '#' l) = l.takeWhile notQF := by
  induction l with
  | nil => rfl
  | cons c t ih =>
    by_cases h1 : c = '#'
    · subst h1
      simp [splitFirst, List.takeWhile_cons, notQF]
    · by_cases h2 : c = '?'
      · subst h2
        simp [splitFirst, List.takeWhile_cons, notQF]
      · simpa [splitFirst, List.takeWhile_cons, notQF, h1, h2] using ih

theorem normalizeUrlL_eq_takeWhile (l : List Char) :
    normalizeUrlL l = l.takeWhile notQF := by
  by_cases h : l = []
  · subst h; rfl
  · simpa [normalizeUrlL, h] using splitFirst_splitFirst l

theorem takeWhile_idem (p : α → Bool) (l : List α) :
    (l.takeWhile p).takeWhile p = l.takeWhile p := by
  induction l with
  | nil => rfl
  | cons c t ih =>
    by_cases h : p c
    · simp [List.takeWhile_cons, h, ih]
    · simp [List.takeWhile_cons, h]

theorem normalizeUrlL_idem (l : List Char) :
    normalizeUrlL (normalizeUrlL l) = normalizeUrlL l := by
  simp [normalizeUrlL_eq_takeWhile, takeWhile_idem]

/-- C6: `normalize_url` is idempotent, and equals the spec-side
"strip everything from the first `#` or `?` onward, whichever comes
first" (so query and fragment are both removed regardless of which of
the two appears first in the original string). -/
theorem normalize_url_idem_and_strips (u : String) :
    normalize_url (normalize_url u) = normalize_url u ∧
      normalize_url u = stripAtQueryOrFragment u := by
  constructor
  · show (⟨normalizeUrlL (normalizeUrlL u.data)⟩ : String) = ⟨normalizeUrlL u.data⟩
    rw [normalizeUrlL_idem]
  · show (⟨normalizeUrlL u.data⟩ : String) = ⟨u.data.takeWhile _⟩
    rw [normalizeUrlL_eq_takeWhile]
    rfl

/-! ## Lemmas for invariance of classification under normalization -/

theorem site_chars_notQF : ∀ c ∈ SITE.data, notQF c = true := by decide

theorem normalizeUrlL_site_append (r : List Char) :
    normalizeUrlL (SITE.data ++ r) = SITE.data ++ r.takeWhile notQF := by
  rw [normalizeUrlL_eq_takeWhile, List.takeWhile_append_of_pos site_chars_notQF]

/-- C10: classification is invariant under normalization:
`is_post_url (normalize_url u) = is_post_url u`, because `is_post_url`
normalizes internally and normalization only truncates at the first `#`
or `?`, preserving both the site-base prefix test and the computed path. -/
theorem is_post_url_normalize (u : String) :
    is_post_url (normalize_url u) = is_post_url u := by
  have hSITEne : SITE.data ≠ [] := by decide
  by_cases hpre : SITE.data <+: u.data
  · obtain ⟨r, hr⟩ := hpre
    have hnorm : (normalize_url u).data = SITE.data ++ r.takeWhile notQF := by
      show normalizeUrlL u.data = _
      rw [← hr, normalizeUrlL_site_append]
    have hne : u ≠ "" := by
      intro h
      rw [h] at hr
      exact hSITEne (List.append_eq_nil.mp hr).1
    have hne' : normalize_url u ≠ "" := by
      intro h
      have hd : (normalize_url u).data = ([] : List Char) := by rw [h]
      rw [hnorm] at hd
      exact hSITEne (List.append_eq_nil.mp hd).1
    have hpre' : SITE.data <+: (normalize_url u).data := by
      rw [hnorm]; exact ⟨_, rfl⟩
    have hleft : normalizeUrlL (normalize_url u).data = SITE.data ++ r.takeWhile notQF := by
      rw [hnorm, normalizeUrlL_eq_takeWhile,
        List.takeWhile_append_of_pos site_chars_notQF, takeWhile_idem]
    have hright : normalizeUrlL u.data = SITE.data ++ r.takeWhile notQF := by
      rw [← hr, normalizeUrlL_site_append]
    have hpath : postPath (normalize_url u) = postPath u := by
      unfold postPath
      rw [hleft, hright]
    unfold is_post_url
    rw [if_neg hne', if_neg hne, if_pos hpre',
      if_pos (show SITE.data <+: u.data from ⟨r, hr⟩), hpath]
  · have hpre' : ¬ SITE.data <+: (normalize_url u).data := by
      intro h
      apply hpre
      exact h.trans (by rw [show (normalize_url u).data = normalizeUrlL u.data from rfl,
        normalizeUrlL_eq_takeWhile]; exact List.takeWhile_prefix _)
    unfold is_post_url
    by_cases h0 : u = ""
    · subst h0; rfl
    · by_cases h1 : normalize_url u = ""
      · rw [if_pos h1, if_neg h0, if_neg hpre]
      · rw [if_neg h0, if_neg h1, if_neg hpre, if_neg hpre']

/-! ## C1: full characterization of `is_post_url` -/

/-- C1: `is_post_url u` is true exactly when `u` is nonempty, carries the
site-base prefix, and its path (the remainder of the normalized URL after
the base, trimmed of slashes) is nonempty, starts with none of the blocked
prefixes, contains no "/page/" pagination segment, equals no blocked slug,
and ends with no known asset extension; it is false otherwise. -/
theorem is_post_url_spec (u : String) : is_post_url u = true ↔ IsPostUrlSpec u := by
  unfold is_post_url pathChecks IsPostUrlSpec
  split_ifs with h1 h2 h3 h4 h5 h6 h7 <;>
    simp_all [not_exists]

theorem is_post_url_spec_witness :
    is_post_url "https://ultimasgeek.com/un-post/" = true ∧
    IsPostUrlSpec "https://ultimasgeek.com/un-post/" :=
  ⟨by decide, (is_post_url_spec "https://ultimasgeek.com/un-post/").mp (by decide)⟩

/-! ## C3: concrete behaviour of the date parser -/

/-- C3: `parse_date_es` on "Publicado el 27 enero, 2026 por..." yields
2026-01-27T15:00:00 UTC (the matched date at noon in the fixed −03 offset,
converted to UTC), and on "sin fecha aquí" yields no result. -/
theorem parse_date_es_examples :
    parse_date_es "Publicado el 27 enero, 2026 por..." =
      ParseDateResult.date ⟨2026, 1, 27, 15, 0, 0⟩ ∧
    parse_date_es "sin fecha aquí" = ParseDateResult.noDate := by
  exact ⟨by decide, by decide⟩

/-! ## C4: description truncation -/

set_option maxRecDepth 4000 in
/-- C4 counterexample: for the 301-character description whose 300th
character is a space, the truncated output is NOT "exactly the first 300
characters plus a single trailing ellipsis" — the code also strips the
trailing whitespace of the 300-character prefix before appending `…`. -/
theorem truncate_desc_not_take_append :
    ¬ truncate_desc longDesc = (⟨longDesc.data.take 300⟩ : String) ++ "…" := by
  decide

/-- C4 (amended): the resolved description is whitespace-trimmed; if the
trimmed description exceeds 300 characters the output is its first 300
characters with trailing whitespace removed, plus a single ellipsis
character; at or under 300 characters the trimmed description is
unchanged. -/
theorem truncate_desc_amended (d : String) :
    (300 < (py_strip d).length →
      truncate_desc d = py_rstrip (⟨(py_strip d).data.take 300⟩ : String) ++ "…") ∧
    ((py_strip d).length ≤ 300 → truncate_desc d = py_strip d) := by
  constructor
  · intro h
    simp [truncate_desc, h]
  · intro h
    simp [truncate_desc, Nat.not_lt.mpr h]

set_option maxRecDepth 4000 in
theorem truncate_desc_amended_witness :
    (300 < (py_strip longDesc).length ∧
      truncate_desc longDesc = py_rstrip (⟨(py_strip longDesc).data.take 300⟩ : String) ++ "…") ∧
    ((py_strip shortDesc).length ≤ 300 ∧ truncate_desc shortDesc = py_strip shortDesc) :=
  ⟨⟨by decide, (truncate_desc_amended longDesc).1 (by decide)⟩,
   ⟨by decide, (truncate_desc_amended shortDesc).2 (by decide)⟩⟩

/-! ## C2: title resolution chain -/

/-- C2: the title is resolved by trying, in order, the social-metadata
title, the first heading's text, then the page-title text, first non-empty
result winning; a page offering only a page-title element yields that
title's text; and if all three sources are empty or absent, `parse_post`
returns no record. -/
theorem title_resolution :
    (∀ p : Page, resolveTitle p = titleChainSpec p) ∧
    resolveTitle onlyTitlePage = "Sólo Título" ∧
    (∀ (p : Page) (u : String) (now : UTCTime),
      resolveTitle p = "" → parse_post (.ok p) u now = .ok none) := by
  refine ⟨?_, by decide, ?_⟩
  · rintro ⟨og, h1v, ttv, d1, d2, d3, d4, ta⟩
    unfold resolveTitle titleChainSpec firstNonEmpty get_meta
    rcases h1v with _ | h <;> rcases ttv with _ | t <;>
      split_ifs <;> simp_all [firstNonEmpty]
  · intro p u now h
    unfold parse_post
    simp [h]

theorem title_resolution_witness :
    resolveTitle emptyPage = "" ∧
    parse_post (.ok emptyPage) "https://ultimasgeek.com/x/" t0 = .ok none :=
  ⟨by decide, title_resolution.2.2 emptyPage "https://ultimasgeek.com/x/" t0 (by decide)⟩

/-! ## C9: the date parser is not total and the exception escapes -/

/-- C9: on text whose first pattern match carries a day invalid for the
matched month ("31 febrero, 2026") or a zero day ("0 enero, 2026"), the
`datetime` construction raises `ValueError` instead of returning no
result; `parse_post` does not catch it (its `try` covers only the fetch,
which, when it fails, is caught and yields no record). -/
theorem parse_date_es_value_error :
    parse_date_es "31 febrero, 2026" = ParseDateResult.valueError ∧
    parse_date_es "0 enero, 2026" = ParseDateResult.valueError ∧
    parse_post (.ok badDatePage) "https://ultimasgeek.com/x/" t0 = .error () ∧
    parse_post .failed "https://ultimasgeek.com/x/" t0 = .ok none := by
  refine ⟨by decide, by decide, by rfl, rfl⟩

/-! ## C8: image MIME guessing and absolute-URL gating -/

/-- C8: `guess_image_mime` maps `.webp` to `image/webp` and an
unrecognized suffix to the default `image/jpeg` (after stripping
query/fragment and lowercasing); an image URL not prefixed by `http`
produces neither inline image markup nor an enclosure element. -/
theorem image_mime_and_gating :
    guess_image_mime "http://x.com/a.webp" = "image/webp" ∧
    guess_image_mime "http://x.com/a.unknownext" = "image/jpeg" ∧
    (∀ it : RssItem, py_startswith (imgUrlOf it) "http" = false →
      imgHtml it = "" ∧ enclosureElem it = "") := by
  refine ⟨by decide, by decide, ?_⟩
  intro it h
  constructor <;> simp [imgHtml, enclosureElem, h]

theorem image_mime_and_gating_witness :
    py_startswith (imgUrlOf relImgItem) "http" = false ∧
    imgHtml relImgItem = "" ∧ enclosureElem relImgItem = "" :=
  ⟨by decide, image_mime_and_gating.2.2 relImgItem (by decide)⟩

/-! ## C5: the orchestrator accumulation loop -/

theorem collectItems_eq_dedup_take :
    ∀ (rs : List (Option RssItem)) (seen : List (String × String)) (acc : List RssItem),
      acc.length < MAX_ITEMS →
      collectItems rs seen acc
        = acc ++ (dedupByKey (rs.filterMap id) seen).take (MAX_ITEMS - acc.length) := by
  intro rs
  induction rs with
  | nil => intro seen acc h; simp [collectItems, dedupByKey]
  | cons o rest ih =>
    intro seen acc h
    match o with
    | none => simpa [collectItems] using ih seen acc h
    | some it =>
      by_cases hk : keyOf it ∈ seen
      · simpa [collectItems, dedupByKey, hk] using ih seen acc h
      · simp only [collectItems, dedupByKey, hk, if_neg, if_pos, List.filterMap_cons_some, id]
        by_cases hfull : MAX_ITEMS ≤ (acc ++ [it]).length
        · rw [if_pos hfull]
          have hlen : acc.length + 1 = MAX_ITEMS := by
            simp at hfull; omega
          have h1 : MAX_ITEMS - acc.length = 1 := by omega
          simp [h1]
        · rw [if_neg hfull]
          have hlt : (acc ++ [it]).length < MAX_ITEMS := by
            simp at hfull ⊢; omega
          rw [ih (keyOf it :: seen) (acc ++ [it]) hlt]
          have hsub : MAX_ITEMS - acc.length = (MAX_ITEMS - (acc ++ [it]).length) + 1 := by
            simp at hlt ⊢; omega
          rw [hsub]
          simp [List.take_succ_cons]

theorem dedupByKey_not_mem_seen :
    ∀ (l : List RssItem) (seen : List (String × String)),
      ∀ it ∈ dedupByKey l seen, keyOf it ∉ seen := by
  intro l
  induction l with
  | nil => intro seen it h; simp [dedupByKey] at h
  | cons a rest ih =>
    intro seen it h
    by_cases hk : keyOf a ∈ seen
    · rw [dedupByKey, if_pos hk] at h
      exact ih seen it h
    · rw [dedupByKey, if_neg hk] at h
      rcases List.mem_cons.mp h with h | h
      · rw [h]; exact hk
      · have := ih (keyOf a :: seen) it h
        intro hmem
        exact this (List.mem_cons_of_mem _ hmem)

theorem dedupByKey_pairwise :
    ∀ (l : List RssItem) (seen : List (String × String)),
      (dedupByKey l seen).Pairwise (fun a b => keyOf a ≠ keyOf b) := by
  intro l
  induction l with
  | nil => intro seen; simp [dedupByKey]
  | cons a rest ih =>
    intro seen
    by_cases hk : keyOf a ∈ seen
    · rw [dedupByKey, if_pos hk]; exact ih seen
    · rw [dedupByKey, if_neg hk]
      refine List.Pairwise.cons ?_ (ih (keyOf a :: seen))
      intro b hb hab
      have := dedupByKey_not_mem_seen rest (keyOf a :: seen) b hb
      exact this (by rw [← hab]; exact List.mem_cons_self _ _)

/-- C5: over any sequence of per-candidate results, the orchestrator loop
(a) accumulates exactly the first-occurrence deduplication (by the pair
(link, lowercased whitespace-trimmed title)) of the successful records,
cut at the configured maximum, so a record whose pair matches an
already-accepted one is dropped without counting toward the maximum;
(b) never returns more than `MAX_ITEMS` items; and
(c) no two accepted records share the same pair. -/
theorem main_loop_invariants (rs : List (Option RssItem)) :
    collectItems rs [] [] = (dedupByKey (rs.filterMap id) []).take MAX_ITEMS ∧
    (collectItems rs [] []).length ≤ MAX_ITEMS ∧
    (collectItems rs [] []).Pairwise (fun a b => keyOf a ≠ keyOf b) := by
  have h := collectItems_eq_dedup_take rs [] [] (by decide)
  simp only [List.nil_append, List.length_nil, Nat.sub_zero] at h
  refine ⟨h, ?_, ?_⟩
  · rw [h]; exact List.length_take_le _ _
  · rw [h]
    exact List.Pairwise.sublist (List.take_sublist _ _) (dedupByKey_pairwise _ _)

/-! ## C7: lemmas about the CDATA escape and the feed-builder loop -/

theorem take_two_shape (l : List Char) (h : l.take 2 = [']', '>']) :
    ∃ u, l = ']' :: '>' :: u := by
  rcases l with _ | ⟨a, _ | ⟨b, u⟩⟩
  · exact absurd h (by decide)
  · simp at h
  · have ht : (a :: b :: u).take 2 = [a, b] := rfl
    rw [ht] at h
    simp only [List.cons.injEq, and_true] at h
    exact ⟨u, by rw [h.1, h.2]⟩

theorem escCd_term (t : List Char) :
    escCd (']' :: ']' :: '>' :: t)
      = ']' :: ']' :: ']' :: ']' :: '>' :: '<' :: '!' :: '[' :: 'C' :: 'D' :: 'A' :: 'T' :: 'A' :: '[' :: '>' :: escCd t := by
  rfl

theorem escCd_cons_ne (c : Char) (l : List Char)
    (h : ¬(c = ']' ∧ l.take 2 = [']', '>'])) :
    escCd (c :: l) = c :: escCd l := by
  rw [escCd.eq_def]
  split
  · rename_i rest heq
    simp only [List.cons.injEq] at heq
    exact absurd ⟨heq.1, by rw [heq.2]; rfl⟩ h
  · rename_i c' rest heq
    simp only [List.cons.injEq] at heq
    rw [heq.1, heq.2]
  · rename_i heq
    simp at heq

theorem scanRun_cons_ne (c : Char) (l : List Char)
    (h : ¬(c = ']' ∧ l.take 2 = [']', '>'])) :
    scanRun (c :: l) = (scanRun l).map (fun x => c :: x) := by
  rw [scanRun]
  rw [if_neg h]

theorem scanRun_term_nil : scanRun cdClose = some [] := by
  rw [show cdClose = ']' :: [']', '>'] from rfl, scanRun]
  rw [if_pos ⟨rfl, rfl⟩]
  rw [if_pos (show List.drop 2 [']', '>'] = [] by rfl)]

theorem scanRun_term_open (t : List Char) :
    scanRun (']' :: ']' :: '>' :: (cdOpen ++ t)) = scanRun t := by
  rw [scanRun]
  rw [if_pos ⟨rfl, rfl⟩]
  have hd : (']' :: '>' :: (cdOpen ++ t)).drop 2 = cdOpen ++ t := rfl
  rw [hd]
  rw [if_neg (by simp [cdOpen]), if_pos (List.prefix_append _ _), List.drop_left]

/-- If the escape of `t` followed by the closing terminator starts with
`]>`, then `t` itself starts with `]>`. -/
theorem escCd_append_close_take2 (t : List Char)
    (h : (escCd t ++ cdClose).take 2 = [']', '>']) : t.take 2 = [']', '>'] := by
  rcases t with _ | ⟨c, t1⟩
  · exact absurd h (by decide)
  · by_cases hT : c = ']' ∧ t1.take 2 = [']', '>']
    · obtain ⟨rfl, ht⟩ := hT
      obtain ⟨u, rfl⟩ := take_two_shape t1 ht
      exfalso
      rw [escCd_term, List.cons_append, List.cons_append] at h
      exact absurd (show ([']', ']'] : List Char) = [']', '>'] from h) (by decide)
    · rw [escCd_cons_ne c t1 hT, List.cons_append] at h
      have h' : c :: (escCd t1 ++ cdClose).take 1 = [']', '>'] := h
      simp only [List.cons.injEq] at h'
      obtain ⟨rfl, h1⟩ := h'
      rcases t1 with _ | ⟨d, t2⟩
      · exact absurd h1 (by decide)
      · by_cases hT2 : d = ']' ∧ t2.take 2 = [']', '>']
        · obtain ⟨rfl, ht2⟩ := hT2
          obtain ⟨u, rfl⟩ := take_two_shape t2 ht2
          exfalso
          rw [escCd_term, List.cons_append] at h1
          exact absurd (show ([']'] : List Char) = ['>'] from h1) (by decide)
        · rw [escCd_cons_ne d t2 hT2, List.cons_append] at h1
          have h2 : [d] = ['>'] := h1
          simp only [List.cons.injEq, and_true] at h2
          have hg : (']' :: d :: t2).take 2 = [']', d] := rfl
          rw [hg, h2]

/-- Round trip of the CDATA escape: scanning the escaped content as a run
of CDATA sections recovers the original exactly; every `]]>` of the input
is split across two adjacent sections, and the escaped output embeds no
stray literal terminator. -/
theorem scanRun_escCd (s : List Char) : scanRun (escCd s ++ cdClose) = some s := by
  rcases s with _ | ⟨c, t⟩
  · exact scanRun_term_nil
  · by_cases hT : c = ']' ∧ t.take 2 = [']', '>']
    · obtain ⟨rfl, ht⟩ := hT
      obtain ⟨u, rfl⟩ := take_two_shape t ht
      rw [escCd_term]
      simp only [List.cons_append]
      rw [scanRun_cons_ne ']'
        (']' :: ']' :: ']' :: '>' :: '<' :: '!' :: '[' :: 'C' :: 'D' :: 'A' :: 'T' :: 'A' :: '[' :: '>' :: (escCd u ++ cdClose))
        (fun hx => absurd (show ([']', ']'] : List Char) = [']', '>'] from hx.2) (by decide))]
      rw [scanRun_cons_ne ']'
        (']' :: ']' :: '>' :: '<' :: '!' :: '[' :: 'C' :: 'D' :: 'A' :: 'T' :: 'A' :: '[' :: '>' :: (escCd u ++ cdClose))
        (fun hx => absurd (show ([']', ']'] : List Char) = [']', '>'] from hx.2) (by decide))]
      have hfold : ('<' :: '!' :: '[' :: 'C' :: 'D' :: 'A' :: 'T' :: 'A' :: '[' :: ('>' :: (escCd u ++ cdClose)))
          = cdOpen ++ ('>' :: (escCd u ++ cdClose)) := rfl
      rw [hfold, scanRun_term_open]
      rw [scanRun_cons_ne '>' _ (fun hx => absurd hx.1 (by decide))]
      rw [scanRun_escCd u]
      rfl
    · rw [escCd_cons_ne c t hT, List.cons_append]
      rw [scanRun_cons_ne c _ (fun hx => hT ⟨hx.1, escCd_append_close_take2 t hx.2⟩)]
      rw [scanRun_escCd t]
      rfl
termination_by s.length
decreasing_by
  all_goals (subst_vars; simp only [List.length_cons]; omega)

theorem parseCDataRun_escCd (s : List Char) :
    parseCDataRun (cdOpen ++ (escCd s ++ cdClose)) = some s := by
  unfold parseCDataRun
  rw [if_pos (List.prefix_append _ _), List.drop_left, scanRun_escCd]

theorem rstrip_gt_newline (Z : List Char) :
    rstripWs (Z ++ ['>', '\n']) = Z ++ ['>'] := by
  unfold rstripWs
  rw [List.reverse_append]
  rw [show (['>', '\n'] : List Char).reverse = ['\n', '>'] from rfl]
  rw [show (['\n', '>'] : List Char) ++ Z.reverse = '\n' :: '>' :: Z.reverse from rfl]
  rw [List.dropWhile_cons_of_pos (by decide), List.dropWhile_cons_of_neg (by decide)]
  rw [List.reverse_cons, List.reverse_reverse]

theorem py_rstrip_item_close (P : String) :
    py_rstrip ((P ++ "\n    </item>") ++ "\n") = P ++ "\n    </item>" := by
  unfold py_rstrip
  have h1 : ((P ++ "\n    </item>") ++ "\n").data
      = (P.data ++ ['\n', ' ', ' ', ' ', ' ', '<', '/', 'i', 't', 'e', 'm']) ++ ['>', '\n'] := by
    rw [String.data_append, String.data_append]
    simp [List.append_assoc]
  rw [h1, rstrip_gt_newline]
  apply String.ext
  rw [String.data_append]
  simp [List.append_assoc]

/-- `rstrip` on the item template only removes the final newline, since the
character before it is the `>` of `</item>`. -/
theorem renderItem_eq (it : RssItem) : renderItem it = renderItemBody it := by
  unfold renderItem renderItemBody
  exact py_rstrip_item_close _

theorem buildRssItems_eq_map :
    ∀ (items : List RssItem) (acc : List String),
      buildRssItems items acc = acc ++ items.map renderItem := by
  intro items
  induction items with
  | nil => intro acc; simp [buildRssItems]
  | cons it rest ih => intro acc; simp [buildRssItems, ih]

/-- C7: the feed builder emits one item block per record in the input
order with no reordering (the accumulation loop is exactly a map over the
input, later joined in that order); each item's title and description are
wrapped in character-data blocks holding the escaped content; and the
escape round-trips: reading the CDATA run of an escaped string recovers it
exactly, so a description containing `]]>` is emitted split across two
adjacent character-data sections with no embedded literal terminator. -/
theorem build_rss_items_in_order_and_escaped :
    (∀ items : List RssItem, buildRssItems items [] = items.map renderItem) ∧
    (∀ it : RssItem, ∃ a b, renderItem it = a ++ titleBlock it ++ b) ∧
    (∀ it : RssItem, ∃ a b, renderItem it = a ++ descBlock it ++ b) ∧
    (∀ s : String, parseCDataRun (cdOpen ++ (escCd s.data ++ cdClose)) = some s.data) := by
  refine ⟨?_, ?_, ?_, fun s => parseCDataRun_escCd s.data⟩
  · intro items
    simpa using buildRssItems_eq_map items []
  · intro it
    refine ⟨"\n    <item>\n      ",
      "\n      <link>" ++ html_escape it.link ++ "</link>"
        ++ "\n      <guid isPermaLink=\"true\">" ++ html_escape it.guid ++ "</guid>"
        ++ "\n      <pubDate>" ++ it.pubDate ++ "</pubDate>"
        ++ "\n      " ++ descBlock it ++ enclosureElem it ++ "\n    </item>", ?_⟩
    rw [renderItem_eq]
    unfold renderItemBody
    simp [String.append_assoc]
  · intro it
    refine ⟨"\n    <item>\n      " ++ titleBlock it
        ++ "\n      <link>" ++ html_escape it.link ++ "</link>"
        ++ "\n      <guid isPermaLink=\"true\">" ++ html_escape it.guid ++ "</guid>"
        ++ "\n      <pubDate>" ++ it.pubDate ++ "</pubDate>"
        ++ "\n      ",
      enclosureElem it ++ "\n    </item>", ?_⟩
    rw [renderItem_eq]
    unfold renderItemBody
    simp [String.append_assoc]

end UltimasGeekRss
